import Mathlib

/-!
Verification development for the rag-pipeline repository.

Shallow embedding of:
 - `src/pinecone-embedding/src/rag_ingest/embed_sparse.py` (`embed_sparse`)
 - `src/pinecone-embedding/src/rag_ingest/s3_loader.py` (`load_parquet_from_s3`)
 - `src/rag-query/llm_generation.py` (`build_context_string`,
   `generate_llm_response_filter_only_search`)
 - `src/rag-query/config.py` (`Config.validate`)
 - `src/api.py` (the `/query` handler)

Python floats are modelled as rationals (every float literal appearing in the
code, such as 0.001 and the retry delays 1.0, 2.0, 4.0, 8.0, is exactly
representable); Python exceptions are modelled with `Except`; external
services (the Pinecone inference client, the S3 client, the local
filesystem, the Anthropic client) are modelled as explicit function/data
parameters describing their observable responses.
-/

/-! ### Model of embed_sparse.py -/

/-- One item of the result returned by `pc.inference.embed`
(its `sparse_indices` / `sparse_values` attributes). -/
structure EmbedItem where
  sparse_indices : List Nat
  sparse_values : List ℚ
  deriving DecidableEq, Repr

/-- A sparse embedding record `{"indices": ..., "values": ...}` as built by
`embed_sparse`. -/
structure SparseEmbedding where
  indices : List Nat
  values : List ℚ
  deriving DecidableEq, Repr

/-- The observable outcome of one call
`pc.inference.embed(model=..., inputs=chunk_batch, parameters=...)`:
either it returns a list of items, or it raises `PineconeApiException`
(carrying an HTTP status), or it raises some other exception. -/
inductive EmbedOutcome where
  | success (items : List EmbedItem)
  | apiError (status : Nat)
  | otherError
  deriving DecidableEq, Repr

/-- The error that `embed_sparse` re-raises. -/
inductive EmbedError where
  | api (status : Nat)
  | other
  deriving DecidableEq, Repr

/-- `max_retries = 5` in `embed_sparse`. -/
def max_retries : Nat := 5

/-- The body of the retry loop `for attempt in range(max_retries)` of
`embed_sparse`, for one batch.  `f attempt` is the outcome of the embedding
call on that attempt; `retry_delay` is the current backoff delay; the
remaining attempt indices are passed as a list.  The result records the
sequence of `time.sleep(retry_delay)` durations performed, paired with
either the successful items (`break` out of the loop) or the re-raised
error.

Mirrors:
  except PineconeApiException as e:
      if e.status == 429 and attempt < max_retries - 1: sleep; delay *= 2
      else: raise
  except Exception:
      if attempt < max_retries - 1: sleep; delay *= 2
      else: raise
-/
def retryGo (f : Nat → EmbedOutcome) (retry_delay : ℚ) :
    List Nat → List ℚ × Except EmbedError (List EmbedItem)
  | [] => ([], .error .other)
  | attempt :: rest =>
    match f attempt with
    | .success items => ([], .ok items)
    | .apiError status =>
      if status = 429 ∧ attempt < max_retries - 1 then
        let r := retryGo f (retry_delay * 2) rest
        (retry_delay :: r.1, r.2)
      else ([], .error (.api status))
    | .otherError =>
      if attempt < max_retries - 1 then
        let r := retryGo f (retry_delay * 2) rest
        (retry_delay :: r.1, r.2)
      else ([], .error .other)

/-- The whole retry loop for one batch: `retry_delay` starts at `1.0` and
the loop runs over `range(max_retries)`.  (The `[]` base case of `retryGo`
is unreachable: on the last attempt index the code always raises or
breaks.) -/
def embedWithRetry (f : Nat → EmbedOutcome) : List ℚ × Except EmbedError (List EmbedItem) :=
  retryGo f 1 (List.range max_retries)

/-- `range(0, len(all_chunks), batch_size)` slicing:
the list of consecutive batches `all_chunks[i:i+batch_size]`.
Structural on a fuel argument so that it evaluates; `l.length` steps always
suffice when `0 < bs` (Python raises `ValueError` for `batch_size = 0`, a
case the claims exclude by hypothesis). -/
def chunkListAux (bs : Nat) : Nat → List α → List (List α)
  | 0, _ => []
  | _ + 1, [] => []
  | fuel + 1, a :: t => (a :: t).take bs :: chunkListAux bs fuel ((a :: t).drop bs)

/-- The batches `all_chunks[i:i+batch_size]` for `i in range(0, len, batch_size)`. -/
def chunkList (bs : Nat) (l : List α) : List (List α) :=
  chunkListAux bs l.length l

/-- The per-item body of `for item in result` in `embed_sparse`: build
`{"indices": item.sparse_indices, "values": item.sparse_values}` and, when
the index list is empty, substitute the placeholder
`{"indices": [0], "values": [0.001]}`. -/
def postProcessItem (item : EmbedItem) : SparseEmbedding :=
  let sparse_embedding : SparseEmbedding :=
    { indices := item.sparse_indices, values := item.sparse_values }
  if sparse_embedding.indices.length = 0 then
    { indices := [0], values := [0.001] }
  else sparse_embedding

/-- The outer batch loop of `embed_sparse`: process batches in order,
appending the post-processed items of each batch; an exhausted retry loop
re-raises, aborting the whole run (no partial result).
`provider b attempt` is the outcome of the embedding call for batch `b` on
retry attempt `attempt`. -/
def embedBatches (provider : List String → Nat → EmbedOutcome) :
    List (List String) → Except EmbedError (List SparseEmbedding)
  | [] => .ok []
  | b :: rest =>
    match (embedWithRetry (provider b)).2 with
    | .error e => .error e
    | .ok items =>
      match embedBatches provider rest with
      | .error e => .error e
      | .ok tail => .ok (items.map postProcessItem ++ tail)

/-- `embed_sparse(pc, df, text_col, ...)` with `texts = df[text_col].to_list()`:
partition into batches of `batch_size` and run the batch loop.  The
`time.sleep(delay_between_requests)` pacing between batches has no effect
on the returned value and is not tracked here. -/
def embed_sparse (provider : List String → Nat → EmbedOutcome)
    (texts : List String) (batch_size : Nat := 96) :
    Except EmbedError (List SparseEmbedding) :=
  embedBatches provider (chunkList batch_size texts)

/-! ### Model of llm_generation.py -/

/-- The metadata mapping of a retrieval match, with the keys
`build_context_string` reads via `metadata.get(...)`; `none` models an
absent key. -/
structure ChunkMetadata where
  text : Option String := none
  state : Option String := none
  county : Option String := none
  «section» : Option String := none
  obligation : Option String := none
  penalty : Option String := none
  permission : Option String := none
  prohibition : Option String := none
  deriving DecidableEq, Repr

/-- One retrieved chunk dictionary: `match.get('metadata', {})` and
`match.get('score', 0)` are the only reads performed. -/
structure RetrievalMatch where
  metadata : Option ChunkMetadata := none
  score : Option ℚ := none
  deriving DecidableEq, Repr

/-- The tag list built inside the loop of `build_context_string`:
append `"Obligation"`, `"Penalty"`, `"Permission"`, `"Prohibition"` in this
order, each exactly when the corresponding metadata field equals `"Y"`. -/
def getTags (metadata : ChunkMetadata) : List String :=
  (if metadata.obligation = some "Y" then ["Obligation"] else []) ++
  (if metadata.penalty = some "Y" then ["Penalty"] else []) ++
  (if metadata.permission = some "Y" then ["Permission"] else []) ++
  (if metadata.prohibition = some "Y" then ["Prohibition"] else [])

/-- The text appended to `context_string` for the match at (0-based)
enumeration index `i`.  `fmtScore` models the Python float formatting
`f"{score:.4f}"` (float rendering is not reproduced; the claims quantify
over it).  The three groups mirror the sequence of `+=` statements: the
five header lines, the optional `Tags:` line, and the `Text:` line. -/
def chunkBlock (fmtScore : ℚ → String) (i : Nat) (mtch : RetrievalMatch) : String :=
  let metadata := mtch.metadata.getD {}
  let score := mtch.score.getD 0
  let chunk_text := metadata.text.getD "N/A"
  let state := metadata.state.getD "N/A"
  let county := metadata.county.getD "N/A"
  let «section» := metadata.«section».getD "N/A"
  let tags := getTags metadata
  ("[Chunk " ++ toString (i + 1) ++ "]\n" ++
   "Score: " ++ fmtScore score ++ "\n" ++
   "State: " ++ state ++ "\n" ++
   "County: " ++ county ++ "\n" ++
   "Section: " ++ «section» ++ "\n") ++
  (if tags.isEmpty then "" else "Tags: " ++ String.intercalate ", " tags ++ "\n") ++
  ("Text: \"" ++ chunk_text ++ "\"\n\n")

/-- `build_context_string(retrieved_chunks, max_chunks=None)`.  An empty
input returns the fixed sentence; otherwise the first `max_chunks` matches
(all of them when `max_chunks is None`) are rendered in enumeration order
and concatenated. -/
def build_context_string (fmtScore : ℚ → String)
    (retrieved_chunks : List RetrievalMatch) (max_chunks : Option Nat := none) : String :=
  if retrieved_chunks.isEmpty then "No documents were retrieved."
  else
    let matches_to_process :=
      match max_chunks with
      | some n => retrieved_chunks.take n
      | none => retrieved_chunks
    String.join (matches_to_process.enum.map fun p => chunkBlock fmtScore p.1 p.2)

/-- The system prompt of `generate_llm_response_filter_only_search`
(the Python triple-quoted literal, indentation included). -/
def filterOnlySystemPrompt : String :=
  "\n    You are a highly intelligent legal analyst.\n    You will be given a *sample* of the top-retrieved legal documents.\n    Your task is to **provide a high-level summary of the main themes** found in this sample.\n\n    - DO NOT try to answer a question.\n    - DO NOT say \"I cannot find an answer.\"\n    - Simply summarize what you see. Group similar topics together.\n    - Start your response with: \"The documents in this sample primarily discuss...\"\n  "

/-- The user prompt of `generate_llm_response_filter_only_search`
(an f-string embedding the context block). -/
def filterOnlyUserPrompt (context_string : String) : String :=
  "\n    **Retrieved Chunks (Sample):**\n    " ++ context_string ++ "\n  "

/-- `generate_llm_response_filter_only_search(query_text, context_string,
num_total_chunks)`.  `llm sys usr` models
`client.messages.create(...).content[0].text` for a system prompt `sys` and
single user message `usr`; the function returns the deterministic prefix
followed by that text.  (`query_text` is received but never read, as in the
source.) -/
def generate_llm_response_filter_only_search (llm : String → String → String)
    (query_text context_string : String) (num_total_chunks : Nat) : String :=
  let response_text := llm filterOnlySystemPrompt (filterOnlyUserPrompt context_string)
  "Found " ++ toString num_total_chunks ++ " laws matching your filters. " ++
    "A full list is available in the generated CSV file.\n\n" ++
    "Here is a quick summary of the first 10 results:\n\n" ++
    response_text

/-! ### Model of api.py -/

/-- Opaque filter mapping passed through to the pipeline. -/
abbrev FilterSpec := List (String × String)

/-- The JSON body of a `POST /query` request; `none` models an absent key,
read via `data.get(key, default)`. -/
structure QueryRequest where
  query : Option String := none
  filters : Option FilterSpec := none
  mode : Option String := none

/-- Which of the two long-lived `RAGPipeline` instances the handler picks:
`baseline_pipeline = RAGPipeline(use_reranking=False)` or
`hybrid_pipeline = RAGPipeline(use_reranking=True)`. -/
inductive PipelineKind where
  | baseline
  | hybrid
  deriving DecidableEq, Repr

/-- `pipeline = hybrid_pipeline if mode == 'hybrid' else baseline_pipeline`. -/
def selectPipeline (mode : String) : PipelineKind :=
  if mode = "hybrid" then .hybrid else .baseline

/-- The JSON body the `/query` handler returns. -/
structure QueryResponse where
  response : String
  chunks : List RetrievalMatch
  mode : String

/-- The `/query` handler.  `runPipeline kind query filters` models
`pipeline.run(query_text, filters)` for the selected instance (the
`RAGPipeline` source is absent from the snapshot, so `run` is an opaque
parameter). -/
def queryHandler (runPipeline : PipelineKind → String → FilterSpec → String × List RetrievalMatch)
    (data : QueryRequest) : QueryResponse :=
  let query_text := data.query.getD ""
  let filters := data.filters.getD []
  let mode := data.mode.getD "hybrid"
  let pipeline := selectPipeline mode
  let r := runPipeline pipeline query_text filters
  { response := r.1, chunks := r.2, mode := mode }

/-! ### Model of config.py -/

/-- The two environment-derived fields of `Config` that `validate` reads.
They are populated by `os.getenv(name, "")`, so an unset variable and a
variable set to the empty string both yield `""`. -/
structure Config where
  PINECONE_API_KEY : String
  ANTHROPIC_API_KEY : String
  deriving DecidableEq, Repr

/-- Populate `Config` from an environment (`none` models an unset
variable), as `os.getenv("PINECONE_API_KEY", "")` /
`os.getenv("ANTHROPIC_API_KEY", "")` do. -/
def Config.ofEnv (env : String → Option String) : Config :=
  { PINECONE_API_KEY := (env "PINECONE_API_KEY").getD ""
    ANTHROPIC_API_KEY := (env "ANTHROPIC_API_KEY").getD "" }

/-- `Config.validate()`: raise `ValueError` when a key is falsy (the empty
string), checking `PINECONE_API_KEY` first; otherwise return `None`. -/
def Config.validate (c : Config) : Except String Unit :=
  if c.PINECONE_API_KEY = "" then
    .error "PINECONE_API_KEY environment variable is not set"
  else if c.ANTHROPIC_API_KEY = "" then
    .error "ANTHROPIC_API_KEY environment variable is not set"
  else .ok ()

/-! ### Model of s3_loader.py

The local filesystem is a list of (path, rows) pairs for the files that
exist; a parquet file is modelled as its list of rows (`DF`), and
`pl.concat(..., how="vertical")` as list concatenation.  The S3 listing is
the sequence of `list_objects_v2` responses the continuation-token loop
consumes, and `get_object` is a partial map from keys to row lists. -/

/-- A parquet table: its list of rows. -/
abbrev DF := List String

/-- Byte/codepoint-wise starts-with on character lists. -/
def strStarts : List Char → List Char → Bool
  | [], _ => true
  | _ :: _, [] => false
  | a :: as, b :: bs => a = b && strStarts as bs

/-- `s.startswith(pre)` on strings. -/
def strStartsS (pre s : String) : Bool :=
  strStarts pre.data s.data

/-- `s.endswith(suf)` on strings. -/
def strEndsS (suf s : String) : Bool :=
  strStarts suf.data.reverse s.data.reverse

/-- Python string `<=`: lexicographic comparison by code point. -/
def lexLe : List Char → List Char → Bool
  | [], _ => true
  | _ :: _, [] => false
  | a :: as, b :: bs =>
    if a.toNat < b.toNat then true
    else if b.toNat < a.toNat then false
    else lexLe as bs

/-- The ordering relation used by Python `sorted` on path strings. -/
def strLeP (a b : String) : Prop :=
  lexLe a.data b.data = true

instance : DecidableRel strLeP :=
  fun a b => inferInstanceAs (Decidable (lexLe a.data b.data = true))

/-- `sorted(paths)`: a stable sort by `strLeP` (Python `sorted` is stable
and compares strings by code point). -/
def sortStrings (l : List String) : List String :=
  List.insertionSort strLeP l

/-- `bucket.startswith(("/", ".", "~"))`: the location is treated as local
exactly when its first character is `/`, `.` or `~`. -/
def isLocalPath (bucket : String) : Bool :=
  match bucket.data with
  | [] => false
  | c :: _ => c = '/' || c = '.' || c = '~'

/-- `os.path.expanduser`: replace a leading `~` by the home directory. -/
def expandUser (home : String) (p : String) : String :=
  if strStartsS "~" p then home ++ String.mk (p.data.drop 1) else p

/-- `os.path.join(a, b)` for the cases arising here: an absolute second
component replaces the first; otherwise insert a separator unless one is
already present. -/
def osJoin (a b : String) : String :=
  if strStartsS "/" b then b
  else if a = "" then b
  else if strEndsS "/" a then a ++ b
  else a ++ "/" ++ b

/-- The local base directory of the loader:
`base = os.path.expanduser(bucket)` then `if prefix: base = os.path.join(base, prefix)`
(a `None` or empty prefix is falsy and leaves the base unchanged). -/
def localBase (home : String) (bucket : String) (pfix : Option String) : String :=
  let base := expandUser home bucket
  match pfix with
  | some p => if p = "" then base else osJoin base p
  | none => base

/-- The directory prefix that `os.path.join(base, "**", "*.parquet")`
imposes on matched paths. -/
def dirSlash (base : String) : String :=
  if strEndsS "/" base then base else base ++ "/"

/-- `glob.glob(os.path.join(base, "**", "*.parquet"), recursive=True)` over
the modelled filesystem: every existing path below `base` whose name ends
in `.parquet`, in filesystem enumeration order (sorted afterwards by the
caller). -/
def globParquet (fs : List (String × DF)) (base : String) : List String :=
  (fs.map Prod.fst).filter fun p =>
    strStartsS (dirSlash base) p && strEndsS ".parquet" p

/-- `pl.read_parquet(path)` on the modelled filesystem (total on the paths
`globParquet` returns, which all exist). -/
def readLocal (fs : List (String × DF)) (p : String) : DF :=
  ((fs.find? fun e => e.1 = p).map Prod.snd).getD []

/-- One `list_objects_v2` response: `contents` is the `Contents` field
(`none` when the key is absent from the response).  Whether the loop
continues is modelled by the position in the response sequence:
`IsTruncated` is true exactly when further responses follow. -/
structure S3Page where
  contents : Option (List String)

/-- `f"{x}"` for an optional string (Python renders `None` as `"None"`). -/
def optStr : Option String → String
  | none => "None"
  | some p => p

/-- The not-found message of the remote Mode B paths. -/
def s3NotFoundMsg (bucket : String) (pfix : Option String) : String :=
  "No parquet files found in S3://" ++ bucket ++ "/" ++ optStr pfix

/-- The continuation-token `while True` loop of the remote Mode B path:
consume listing responses in order; a response without `Contents` raises
`FileNotFoundError`; otherwise append the keys ending in `.parquet` to
`parquet_files` and continue while `IsTruncated`. -/
def pageLoop (bucket : String) (pfix : Option String) :
    List S3Page → List String → Except String (List String)
  | [], parquet_files => .ok parquet_files
  | page :: rest, parquet_files =>
    match page.contents with
    | none => .error (s3NotFoundMsg bucket pfix)
    | some objs =>
      pageLoop bucket pfix rest (parquet_files ++ objs.filter fun k => strEndsS ".parquet" k)

/-- The `get_object` fetch loop of the remote Mode B path: fetch every
listed key in order (a missing object raises, as `get_object` would). -/
def fetchKeys (s3get : String → Option DF) : List String → Except String (List DF)
  | [] => .ok []
  | k :: rest =>
    match s3get k with
    | none => .error ("NoSuchKey: " ++ k)
    | some df => (fetchKeys s3get rest).map (df :: ·)

/-- The external world `load_parquet_from_s3` interacts with. -/
structure LoaderEnv where
  home : String
  fs : List (String × DF)
  s3pages : List S3Page
  s3get : String → Option DF

/-- `load_parquet_from_s3(bucket, prefix, single_key, region)`.  `region`
only configures the client and does not influence the modelled behaviour.
Local locations (leading `/`, `.` or `~`) read from `env.fs`; remote ones
from the listing/object services. -/
def load_parquet_from_s3 (env : LoaderEnv) (bucket : String)
    (pfix : Option String := none) (single_key : Option String := none) :
    Except String DF :=
  if isLocalPath bucket then
    let base := localBase env.home bucket pfix
    match single_key with
    | some k =>
      let path := osJoin base k
      match (env.fs.find? fun e => e.1 = path).map Prod.snd with
      | some df => .ok df
      | none => .error ("No such file: " ++ path)
    | none =>
      let parquet_files := globParquet env.fs base
      if parquet_files = [] then
        .error ("No parquet files found in " ++ base)
      else
        .ok (List.flatten ((sortStrings parquet_files).map (readLocal env.fs)))
  else
    match single_key with
    | some k =>
      match env.s3get k with
      | some df => .ok df
      | none => .error ("NoSuchKey: " ++ k)
    | none =>
      match pageLoop bucket pfix env.s3pages [] with
      | .error e => .error e
      | .ok parquet_files =>
        if parquet_files = [] then
          .error (s3NotFoundMsg bucket pfix)
        else
          match fetchKeys env.s3get parquet_files with
          | .error e => .error e
          | .ok dfs => .ok dfs.flatten

/-! ### Claim C3 -/

/-- C3: the `/query` handler selects the hybrid pipeline iff the mode taken
from the request (defaulting to "hybrid" when absent) equals the literal
string "hybrid"; an absent mode selects hybrid; every other mode selects
baseline; and the response echoes that mode value regardless of the
pipeline run. -/
theorem C3_query_mode_selection
    (runPipeline : PipelineKind → String → FilterSpec → String × List RetrievalMatch)
    (data : QueryRequest) :
    (queryHandler runPipeline data).mode = data.mode.getD "hybrid"
    ∧ (selectPipeline (data.mode.getD "hybrid") = .hybrid ↔ data.mode.getD "hybrid" = "hybrid")
    ∧ (data.mode = none → selectPipeline (data.mode.getD "hybrid") = .hybrid)
    ∧ (∀ m : String, m ≠ "hybrid" → selectPipeline m = .baseline) := by
  refine ⟨rfl, ?_, ?_, ?_⟩
  · unfold selectPipeline
    split <;> simp_all
  · intro h
    simp [h, selectPipeline]
  · intro m hm
    simp [selectPipeline, hm]

/-- Witness for C3 at a concrete pipeline runner and request. -/
theorem C3_query_mode_selection_witness :
    (queryHandler (fun _ _ _ => ("", [])) {}).mode = "hybrid"
    ∧ selectPipeline "baseline" = .baseline := by
  have h := C3_query_mode_selection (fun _ _ _ => ("", [])) {}
  exact ⟨h.1, h.2.2.2 "baseline" (by decide)⟩

/-! ### Claim C8 -/

/-- C8: `generate_llm_response_filter_only_search` returns exactly the
deterministic prefix "Found {n} laws matching your filters. A full list is
available in the generated CSV file.\n\nHere is a quick summary of the
first 10 results:\n\n" followed by the text returned by the model, for
every query, context, chunk count and model behaviour. -/
theorem C8_filter_only_response (llm : String → String → String)
    (query_text context_string : String) (num_total_chunks : Nat) :
    generate_llm_response_filter_only_search llm query_text context_string num_total_chunks
      = "Found " ++ toString num_total_chunks
        ++ " laws matching your filters. A full list is available in the generated CSV file.\n\nHere is a quick summary of the first 10 results:\n\n"
        ++ llm filterOnlySystemPrompt (filterOnlyUserPrompt context_string) := by
  unfold generate_llm_response_filter_only_search
  rw [show (" laws matching your filters. A full list is available in the generated CSV file.\n\nHere is a quick summary of the first 10 results:\n\n" : String)
      = " laws matching your filters. " ++ "A full list is available in the generated CSV file.\n\n"
        ++ "Here is a quick summary of the first 10 results:\n\n" from rfl]
  simp [String.append_assoc]

/-! ### Claim C9 -/

/-- An environment in which both API keys are set, to the empty string. -/
def bothEmptyEnv : String → Option String :=
  fun _ => some ""

/-- C9 counterexample: with both environment variables set (to the empty
string), `validate` still raises — refuting "returns normally with no
return value when both are set". -/
theorem C9_counterexample :
    bothEmptyEnv "PINECONE_API_KEY" ≠ none
    ∧ bothEmptyEnv "ANTHROPIC_API_KEY" ≠ none
    ∧ Config.validate (Config.ofEnv bothEmptyEnv)
        = .error "PINECONE_API_KEY environment variable is not set" := by
  refine ⟨by simp [bothEmptyEnv], by simp [bothEmptyEnv], rfl⟩

/-- C9 (amended): `validate` raises an invalid-configuration error if
either `PINECONE_API_KEY` or `ANTHROPIC_API_KEY` is unset, and returns
normally when both are set to non-empty values; a variable set to the empty
string is indistinguishable from an unset one and also raises. -/
theorem C9_validate (env : String → Option String) :
    ((env "PINECONE_API_KEY" = none ∨ env "ANTHROPIC_API_KEY" = none) →
      ∃ msg, Config.validate (Config.ofEnv env) = .error msg)
    ∧ (∀ s1 s2 : String, env "PINECONE_API_KEY" = some s1 →
        env "ANTHROPIC_API_KEY" = some s2 → s1 ≠ "" → s2 ≠ "" →
        Config.validate (Config.ofEnv env) = .ok ()) := by
  constructor
  · intro h
    by_cases hp : (env "PINECONE_API_KEY").getD "" = ""
    · exact ⟨"PINECONE_API_KEY environment variable is not set",
        by simp [Config.validate, Config.ofEnv, hp]⟩
    · have ha : (env "ANTHROPIC_API_KEY").getD "" = "" := by
        rcases h with h | h
        · simp [h] at hp
        · simp [h]
      exact ⟨"ANTHROPIC_API_KEY environment variable is not set",
        by simp [Config.validate, Config.ofEnv, hp, ha]⟩
  · intro s1 s2 h1 h2 hs1 hs2
    simp [Config.validate, Config.ofEnv, h1, h2, hs1, hs2]

/-- Witness for C9 at two concrete environments. -/
theorem C9_validate_witness :
    Config.validate (Config.ofEnv (fun _ => some "k")) = .ok ()
    ∧ ∃ msg, Config.validate (Config.ofEnv (fun _ => none)) = .error msg := by
  constructor
  · exact (C9_validate (fun _ => some "k")).2 "k" "k" rfl rfl (by decide) (by decide)
  · exact (C9_validate (fun _ => none)).1 (Or.inl rfl)

/-! ### Claim C10 -/

/-- C10: on a non-empty match list, `max_chunks = 0` yields the empty
string, not the "No documents were retrieved." message: the emptiness
check precedes the truncation. -/
theorem C10_max_chunks_zero (fmtScore : ℚ → String) (l : List RetrievalMatch)
    (h : l ≠ []) :
    build_context_string fmtScore l (some 0) = ""
    ∧ build_context_string fmtScore l (some 0) ≠ "No documents were retrieved." := by
  have hne : l.isEmpty = false := by
    simpa [List.isEmpty_iff] using h
  have h0 : build_context_string fmtScore l (some 0) = "" := by
    simp [build_context_string, hne]
    rfl
  exact ⟨h0, by rw [h0]; decide⟩

/-- Witness for C10 at a concrete non-empty match list. -/
theorem C10_max_chunks_zero_witness :
    build_context_string (fun _ => "0.0000") [{}] (some 0) = ""
    ∧ build_context_string (fun _ => "0.0000") [{}] (some 0)
        ≠ "No documents were retrieved." :=
  C10_max_chunks_zero (fun _ => "0.0000") [{}] (by decide)

/-! ### Claim C4 -/

/-- C4: on an empty match list `build_context_string` returns exactly
"No documents were retrieved."; on a non-empty list with `max_chunks = k`
it is the concatenation of exactly the blocks built from the first `k`
matches — `min k (length)` of them — and with `max_chunks` absent, of one
block per match; every block opens with its "[Chunk i]" header. -/
theorem C4_build_context_string (fmtScore : ℚ → String)
    (l : List RetrievalMatch) (k : Nat) :
    (build_context_string fmtScore [] (some k) = "No documents were retrieved."
      ∧ build_context_string fmtScore [] none = "No documents were retrieved.")
    ∧ (l ≠ [] →
        build_context_string fmtScore l (some k)
          = String.join ((l.take k).enum.map fun p => chunkBlock fmtScore p.1 p.2)
        ∧ ((l.take k).enum.map fun p => chunkBlock fmtScore p.1 p.2).length
            = min k l.length)
    ∧ (l ≠ [] →
        build_context_string fmtScore l none
          = String.join (l.enum.map fun p => chunkBlock fmtScore p.1 p.2)
        ∧ (l.enum.map fun p => chunkBlock fmtScore p.1 p.2).length = l.length)
    ∧ (∀ (i : Nat) (mtch : RetrievalMatch), ∃ rest,
        chunkBlock fmtScore i mtch = "[Chunk " ++ toString (i + 1) ++ "]\n" ++ rest) := by
  refine ⟨⟨rfl, rfl⟩, ?_, ?_, ?_⟩
  · intro h
    have hne : l.isEmpty = false := by simpa [List.isEmpty_iff] using h
    exact ⟨by simp [build_context_string, hne], by simp⟩
  · intro h
    have hne : l.isEmpty = false := by simpa [List.isEmpty_iff] using h
    exact ⟨by simp [build_context_string, hne], by simp⟩
  · intro i mtch
    apply Exists.intro
    simp only [chunkBlock, String.append_assoc]
    rfl

/-- Witness for C4 at a concrete two-element match list truncated to one
block. -/
theorem C4_build_context_string_witness :
    build_context_string (fun _ => "s") [{}, {}] (some 1)
      = String.join ((([{}, {}] : List RetrievalMatch).take 1).enum.map
          fun p => chunkBlock (fun _ => "s") p.1 p.2)
    ∧ ((([{}, {}] : List RetrievalMatch).take 1).enum.map
          fun p => chunkBlock (fun _ => "s") p.1 p.2).length = 1 := by
  have h := (C4_build_context_string (fun _ => "s") [{}, {}] 1).2.1 (by decide)
  exact ⟨h.1, h.2⟩

/-! ### Claim C5 -/

/-- C5: the tag list of a rendered match contains "Obligation" iff the
metadata field `obligation` equals "Y", and likewise for "Penalty",
"Permission", "Prohibition"; it always lists present tags in that fixed
order; and the rendered block carries the comma-joined "Tags: " line
exactly when at least one tag is present. -/
theorem C5_tags (metadata : ChunkMetadata) :
    ("Obligation" ∈ getTags metadata ↔ metadata.obligation = some "Y")
    ∧ ("Penalty" ∈ getTags metadata ↔ metadata.penalty = some "Y")
    ∧ ("Permission" ∈ getTags metadata ↔ metadata.permission = some "Y")
    ∧ ("Prohibition" ∈ getTags metadata ↔ metadata.prohibition = some "Y")
    ∧ (getTags metadata).Sublist ["Obligation", "Penalty", "Permission", "Prohibition"]
    ∧ (∀ (fmtScore : ℚ → String) (i : Nat) (mtch : RetrievalMatch), ∃ pre post,
        chunkBlock fmtScore i mtch
          = pre
            ++ (if (getTags (mtch.metadata.getD {})).isEmpty then ""
                else "Tags: "
                  ++ String.intercalate ", " (getTags (mtch.metadata.getD {})) ++ "\n")
            ++ post) := by
  have hsub : ∀ (c : Prop) [Decidable c] (s : String),
      (if c then [s] else []).Sublist [s] := by
    intro c _ s
    split
    · exact List.Sublist.refl _
    · exact List.nil_sublist _
  refine ⟨?_, ?_, ?_, ?_, ?_, ?_⟩
  · by_cases h1 : metadata.obligation = some "Y" <;>
      by_cases h2 : metadata.penalty = some "Y" <;>
      by_cases h3 : metadata.permission = some "Y" <;>
      by_cases h4 : metadata.prohibition = some "Y" <;>
      simp [getTags, h1, h2, h3, h4]
  · by_cases h1 : metadata.obligation = some "Y" <;>
      by_cases h2 : metadata.penalty = some "Y" <;>
      by_cases h3 : metadata.permission = some "Y" <;>
      by_cases h4 : metadata.prohibition = some "Y" <;>
      simp [getTags, h1, h2, h3, h4]
  · by_cases h1 : metadata.obligation = some "Y" <;>
      by_cases h2 : metadata.penalty = some "Y" <;>
      by_cases h3 : metadata.permission = some "Y" <;>
      by_cases h4 : metadata.prohibition = some "Y" <;>
      simp [getTags, h1, h2, h3, h4]
  · by_cases h1 : metadata.obligation = some "Y" <;>
      by_cases h2 : metadata.penalty = some "Y" <;>
      by_cases h3 : metadata.permission = some "Y" <;>
      by_cases h4 : metadata.prohibition = some "Y" <;>
      simp [getTags, h1, h2, h3, h4]
  · simpa [getTags] using
      (((hsub (metadata.obligation = some "Y") "Obligation").append
        (hsub (metadata.penalty = some "Y") "Penalty")).append
        (hsub (metadata.permission = some "Y") "Permission")).append
        (hsub (metadata.prohibition = some "Y") "Prohibition")
  · intro fmtScore i mtch
    exact ⟨_, _, rfl⟩

/-! ### Claim C1 -/

/-- The failure kinds the retry loop of `embed_sparse` actually retries:
a `PineconeApiException` with status 429, or any non-Pinecone exception. -/
def retryableOutcome : EmbedOutcome → Prop
  | .success _ => False
  | .apiError status => status = 429
  | .otherError => True

/-- The error re-raised for a failing outcome. -/
def errOfOutcome : EmbedOutcome → EmbedError
  | .success _ => .other
  | .apiError status => .api status
  | .otherError => .other

/-- A retryable outcome is a 429 API error or a non-Pinecone exception. -/
theorem retryable_cases (f : Nat → EmbedOutcome) (j : Nat)
    (h : retryableOutcome (f j)) :
    f j = .apiError 429 ∨ f j = .otherError := by
  cases hf : f j with
  | success items =>
    rw [hf] at h
    exact absurd h (by simp [retryableOutcome])
  | apiError s =>
    rw [hf] at h
    simp only [retryableOutcome] at h
    subst h
    exact Or.inl rfl
  | otherError => exact Or.inr rfl

/-- The retry loop only consults the attempts it is handed. -/
theorem retryGo_congr (f g : Nat → EmbedOutcome) :
    ∀ (L : List Nat) (d : ℚ), (∀ k ∈ L, f k = g k) →
      retryGo f d L = retryGo g d L := by
  intro L
  induction L with
  | nil => intro d _; rfl
  | cons a rest ih =>
    intro d h
    have ha := h a (List.mem_cons_self a rest)
    have hrec := ih (d * 2) fun k hk => h k (List.mem_cons_of_mem a hk)
    cases hg : g a <;> simp [retryGo, ha, hg, hrec]

/-- An embedding-call failure during `embed_sparse` whose exception is a
`PineconeApiException` with a non-429 status: re-raised at once, with no
sleep and no second attempt — the uniform 5-attempt/1s-2s-4s-8s schedule
the claim asserts for "any other exception" does not happen here. -/
def allServerError : Nat → EmbedOutcome :=
  fun _ => .apiError 500

/-- C1 counterexample: when every call raises a status-500
`PineconeApiException`, the loop performs no backoff sleep at all and
re-raises after the first attempt, not after five attempts with sleeps
1s, 2s, 4s, 8s. -/
theorem C1_counterexample :
    embedWithRetry allServerError = ([], .error (.api 500))
    ∧ embedWithRetry allServerError ≠ ([1, 2, 4, 8], .error (.api 500)) := by
  constructor
  · rfl
  · intro h
    have h1 : ([] : List ℚ) = [1, 2, 4, 8] := congrArg Prod.fst h
    simp at h1

/-- C1 (amended): rate-limit (status 429) `PineconeApiException` failures
and non-Pinecone exceptions are retried identically — up to 5 attempts
total, sleeping 1s, 2s, 4s, 8s between successive failed attempts, with
the original error of the 5th failed attempt re-raised and no 6th attempt
consulted, and a success after `k` failed attempts returning after sleeps
1s, ..., 2^(k-1)s — but a `PineconeApiException` whose status is not 429,
arising on any attempt `k` (after any mix of retried 429/other failures on
the earlier attempts), is re-raised on that very attempt: the sleep trace
stops at the `k` backoff sleeps already performed and no further sleep or
attempt happens. -/
theorem C1_retry_policy (f : Nat → EmbedOutcome) :
    ((∀ k, k < max_retries → retryableOutcome (f k)) →
      embedWithRetry f = ([1, 2, 4, 8], .error (errOfOutcome (f 4))))
    ∧ (∀ k status, k < max_retries → (∀ j, j < k → retryableOutcome (f j)) →
        status ≠ 429 → f k = .apiError status →
        embedWithRetry f = ((List.range k).map fun j => ((2 : ℚ) ^ j),
          .error (.api status)))
    ∧ (∀ g : Nat → EmbedOutcome, (∀ k, k < max_retries → f k = g k) →
        embedWithRetry f = embedWithRetry g)
    ∧ (∀ k items, k < max_retries → (∀ j, j < k → retryableOutcome (f j)) →
        f k = .success items →
        embedWithRetry f = ((List.range k).map fun j => ((2 : ℚ) ^ j), .ok items)) := by
  refine ⟨?_, ?_, ?_, ?_⟩
  · intro h
    have e0 := retryable_cases f 0 (h 0 (by norm_num [max_retries]))
    have e1 := retryable_cases f 1 (h 1 (by norm_num [max_retries]))
    have e2 := retryable_cases f 2 (h 2 (by norm_num [max_retries]))
    have e3 := retryable_cases f 3 (h 3 (by norm_num [max_retries]))
    have e4 := retryable_cases f 4 (h 4 (by norm_num [max_retries]))
    rcases e0 with h0 | h0 <;> rcases e1 with h1 | h1 <;>
      rcases e2 with h2 | h2 <;> rcases e3 with h3 | h3 <;>
      rcases e4 with h4 | h4 <;>
      simp [embedWithRetry, retryGo, max_retries, List.range_succ,
        h0, h1, h2, h3, h4, errOfOutcome] <;> norm_num
  · intro k status hk hprev hs hfk
    have hk5 : k < 5 := hk
    interval_cases k
    · simp [embedWithRetry, retryGo, max_retries, List.range_succ, hfk, hs]
    · have e0 := retryable_cases f 0 (hprev 0 (by norm_num))
      rcases e0 with h0 | h0 <;>
        simp [embedWithRetry, retryGo, max_retries, List.range_succ, h0, hfk, hs]
    · have e0 := retryable_cases f 0 (hprev 0 (by norm_num))
      have e1 := retryable_cases f 1 (hprev 1 (by norm_num))
      rcases e0 with h0 | h0 <;> rcases e1 with h1 | h1 <;>
        simp [embedWithRetry, retryGo, max_retries, List.range_succ,
          h0, h1, hfk, hs]
    · have e0 := retryable_cases f 0 (hprev 0 (by norm_num))
      have e1 := retryable_cases f 1 (hprev 1 (by norm_num))
      have e2 := retryable_cases f 2 (hprev 2 (by norm_num))
      rcases e0 with h0 | h0 <;> rcases e1 with h1 | h1 <;>
        rcases e2 with h2 | h2 <;>
        simp [embedWithRetry, retryGo, max_retries, List.range_succ,
          h0, h1, h2, hfk, hs] <;>
        norm_num
    · have e0 := retryable_cases f 0 (hprev 0 (by norm_num))
      have e1 := retryable_cases f 1 (hprev 1 (by norm_num))
      have e2 := retryable_cases f 2 (hprev 2 (by norm_num))
      have e3 := retryable_cases f 3 (hprev 3 (by norm_num))
      rcases e0 with h0 | h0 <;> rcases e1 with h1 | h1 <;>
        rcases e2 with h2 | h2 <;> rcases e3 with h3 | h3 <;>
        simp [embedWithRetry, retryGo, max_retries, List.range_succ,
          h0, h1, h2, h3, hfk, hs] <;>
        norm_num
  · intro g hfg
    exact retryGo_congr f g (List.range max_retries) 1
      fun k hk => hfg k (List.mem_range.mp hk)
  · intro k items hk hprev hfk
    have hk5 : k < 5 := hk
    interval_cases k
    · simp [embedWithRetry, retryGo, max_retries, List.range_succ, hfk]
    · have e0 := retryable_cases f 0 (hprev 0 (by norm_num))
      rcases e0 with h0 | h0 <;>
        simp [embedWithRetry, retryGo, max_retries, List.range_succ, h0, hfk]
    · have e0 := retryable_cases f 0 (hprev 0 (by norm_num))
      have e1 := retryable_cases f 1 (hprev 1 (by norm_num))
      rcases e0 with h0 | h0 <;> rcases e1 with h1 | h1 <;>
        simp [embedWithRetry, retryGo, max_retries, List.range_succ, h0, h1, hfk]
    · have e0 := retryable_cases f 0 (hprev 0 (by norm_num))
      have e1 := retryable_cases f 1 (hprev 1 (by norm_num))
      have e2 := retryable_cases f 2 (hprev 2 (by norm_num))
      rcases e0 with h0 | h0 <;> rcases e1 with h1 | h1 <;>
        rcases e2 with h2 | h2 <;>
        simp [embedWithRetry, retryGo, max_retries, List.range_succ,
          h0, h1, h2, hfk] <;>
        norm_num
    · have e0 := retryable_cases f 0 (hprev 0 (by norm_num))
      have e1 := retryable_cases f 1 (hprev 1 (by norm_num))
      have e2 := retryable_cases f 2 (hprev 2 (by norm_num))
      have e3 := retryable_cases f 3 (hprev 3 (by norm_num))
      rcases e0 with h0 | h0 <;> rcases e1 with h1 | h1 <;>
        rcases e2 with h2 | h2 <;> rcases e3 with h3 | h3 <;>
        simp [embedWithRetry, retryGo, max_retries, List.range_succ,
          h0, h1, h2, h3, hfk] <;>
        norm_num

/-- Witness for C1: five consecutive non-Pinecone failures sleep
1s, 2s, 4s, 8s and re-raise; a retried 429 followed by a status-500
failure sleeps once and re-raises the 500 on the second attempt. -/
theorem C1_retry_policy_witness :
    embedWithRetry (fun _ => EmbedOutcome.otherError) = ([1, 2, 4, 8], .error .other)
    ∧ embedWithRetry
        (fun j => if j = 0 then EmbedOutcome.apiError 429 else EmbedOutcome.apiError 500)
      = ([1], .error (.api 500)) := by
  constructor
  · have h := (C1_retry_policy (fun _ => EmbedOutcome.otherError)).1
      (fun k _ => by simp [retryableOutcome])
    simpa [errOfOutcome] using h
  · have h := (C1_retry_policy
      (fun j => if j = 0 then EmbedOutcome.apiError 429 else EmbedOutcome.apiError 500)).2.1
      1 500 (by norm_num [max_retries])
      (fun j hj => by interval_cases j; simp [retryableOutcome])
      (by norm_num) (by norm_num)
    simpa using h

/-! ### Claim C2 -/

/-- With fuel at least the list length and a positive batch size, the
batches concatenate back to the input. -/
theorem chunkListAux_flatten (bs : Nat) (hbs : 0 < bs) :
    ∀ (fuel : Nat) (l : List α), l.length ≤ fuel →
      (chunkListAux bs fuel l).flatten = l := by
  intro fuel
  induction fuel with
  | zero =>
    intro l hl
    have h0 : l = [] := List.length_eq_zero.mp (Nat.le_zero.mp hl)
    simp [h0, chunkListAux]
  | succ n ih =>
    intro l hl
    match l with
    | [] => simp [chunkListAux]
    | a :: t =>
      have hlen : ((a :: t).drop bs).length ≤ n := by
        rw [List.length_drop]
        simp only [List.length_cons] at hl ⊢
        omega
      have hrec := ih ((a :: t).drop bs) hlen
      show ((a :: t).take bs :: chunkListAux bs n ((a :: t).drop bs)).flatten = a :: t
      rw [List.flatten_cons, hrec, List.take_append_drop]

/-- The batches of `embed_sparse` partition the input texts. -/
theorem chunkList_flatten (bs : Nat) (hbs : 0 < bs) (l : List α) :
    (chunkList bs l).flatten = l :=
  chunkListAux_flatten bs hbs l.length l le_rfl

/-- When every batch embeds successfully, the batch loop returns the
post-processed items of all batches in order. -/
theorem embedBatches_ok (provider : List String → Nat → EmbedOutcome)
    (f : List String → List EmbedItem)
    (hok : ∀ b, (embedWithRetry (provider b)).2 = .ok (f b)) :
    ∀ chunks : List (List String),
      embedBatches provider chunks
        = .ok (chunks.flatMap fun b => (f b).map postProcessItem) := by
  intro chunks
  induction chunks with
  | nil => rfl
  | cons b rest ih => simp [embedBatches, hok b, ih]

/-- A per-batch length-preserving map preserves total length under
`flatMap`. -/
theorem flatMap_length_eq (f : List String → List EmbedItem)
    (hlen : ∀ b, (f b).length = b.length) (chunks : List (List String)) :
    (chunks.flatMap f).length = chunks.flatten.length := by
  induction chunks with
  | nil => rfl
  | cons b rest ih => simp [hlen b, ih]

/-- C2: when the provider eventually returns `f b` for every batch `b` and
returns one item per input text, `embed_sparse` returns exactly the
post-processed items of all batches in input order — as many records as
input texts — where an item with an empty index list becomes the
placeholder `{indices: [0], values: [0.001]}`, any other item is kept
exactly as returned, and no record has empty indices. -/
theorem C2_embed_sparse (provider : List String → Nat → EmbedOutcome)
    (f : List String → List EmbedItem) (texts : List String) (batch_size : Nat)
    (hbs : 0 < batch_size)
    (hok : ∀ b, (embedWithRetry (provider b)).2 = .ok (f b))
    (hlen : ∀ b, (f b).length = b.length) :
    embed_sparse provider texts batch_size
      = .ok (((chunkList batch_size texts).flatMap f).map postProcessItem)
    ∧ (((chunkList batch_size texts).flatMap f).map postProcessItem).length
        = texts.length
    ∧ (∀ item : EmbedItem, item.sparse_indices = [] →
        postProcessItem item = { indices := [0], values := [0.001] })
    ∧ (∀ item : EmbedItem, item.sparse_indices ≠ [] →
        postProcessItem item
          = { indices := item.sparse_indices, values := item.sparse_values })
    ∧ (∀ item : EmbedItem, (postProcessItem item).indices ≠ []) := by
  refine ⟨?_, ?_, ?_, ?_, ?_⟩
  · rw [embed_sparse, embedBatches_ok provider f hok, List.map_flatMap]
  · rw [List.length_map, flatMap_length_eq f hlen, chunkList_flatten batch_size hbs]
  · intro item h
    simp [postProcessItem, h]
  · intro item h
    simp [postProcessItem, h]
  · intro item
    by_cases h : item.sparse_indices = [] <;> simp [postProcessItem, h]

/-- Witness for C2: three texts in batches of two, with a provider whose
items all have empty index lists, yield three placeholder records. -/
theorem C2_embed_sparse_witness :
    embed_sparse
        (fun b _ => .success (b.map fun _ =>
          ({ sparse_indices := [], sparse_values := [] } : EmbedItem)))
        ["a", "b", "c"] 2
      = .ok [{ indices := [0], values := [0.001] },
             { indices := [0], values := [0.001] },
             { indices := [0], values := [0.001] }] := by
  have h := C2_embed_sparse
    (fun b _ => .success (b.map fun _ =>
      ({ sparse_indices := [], sparse_values := [] } : EmbedItem)))
    (fun b => b.map fun _ =>
      ({ sparse_indices := [], sparse_values := [] } : EmbedItem))
    ["a", "b", "c"] 2 (by decide) (fun b => rfl) (fun b => by simp)
  rw [h.1]
  rfl

/-! ### Claim C6 -/

/-- Every run of the listing loop whose responses never list a `.parquet`
key ends in the not-found error or returns its accumulator unchanged. -/
theorem pageLoop_no_parquet (bucket : String) (pfix : Option String) :
    ∀ (pages : List S3Page) (acc : List String),
      (∀ page ∈ pages, ∀ objs, page.contents = some objs →
        objs.filter (fun k => strEndsS ".parquet" k) = []) →
      pageLoop bucket pfix pages acc = .ok acc
      ∨ pageLoop bucket pfix pages acc = .error (s3NotFoundMsg bucket pfix) := by
  intro pages
  induction pages with
  | nil => intro acc _; exact Or.inl rfl
  | cons page rest ih =>
    intro acc h
    cases hc : page.contents with
    | none => exact Or.inr (by simp [pageLoop, hc])
    | some objs =>
      have hf := h page (List.mem_cons_self page rest) objs hc
      have hrest := ih acc fun pg hm => h pg (List.mem_cons_of_mem page hm)
      simpa [pageLoop, hc, hf] using hrest

/-- C6: in Mode B (no `single_key`), discovering zero files ending in
`.parquet` produces the not-found error, both for a local location and for
a remote bucket. -/
theorem C6_not_found (env : LoaderEnv) (bucket : String) (pfix : Option String) :
    (isLocalPath bucket = true →
      globParquet env.fs (localBase env.home bucket pfix) = [] →
      load_parquet_from_s3 env bucket pfix none
        = .error ("No parquet files found in " ++ localBase env.home bucket pfix))
    ∧ (isLocalPath bucket = false →
      (∀ page ∈ env.s3pages, ∀ objs, page.contents = some objs →
        objs.filter (fun k => strEndsS ".parquet" k) = []) →
      load_parquet_from_s3 env bucket pfix none = .error (s3NotFoundMsg bucket pfix)) := by
  constructor
  · intro hl hglob
    simp [load_parquet_from_s3, hl, hglob]
  · intro hl hpages
    rcases pageLoop_no_parquet bucket pfix env.s3pages [] hpages with h | h <;>
      simp [load_parquet_from_s3, hl, h]

/-- Witness for C6: an empty local directory and a remote listing with a
single page that carries no `.parquet` key. -/
theorem C6_not_found_witness :
    load_parquet_from_s3 ⟨"/home/u", [], [⟨some ["x.txt"]⟩], fun _ => none⟩
        "./data" none none
      = .error ("No parquet files found in " ++ "./data")
    ∧ load_parquet_from_s3 ⟨"/home/u", [], [⟨some ["x.txt"]⟩], fun _ => none⟩
        "remote-bucket" (some "p/") none
      = .error (s3NotFoundMsg "remote-bucket" (some "p/")) := by
  constructor
  · have h := (C6_not_found ⟨"/home/u", [], [⟨some ["x.txt"]⟩], fun _ => none⟩
      "./data" none).1 (by decide) (by decide)
    simpa using h
  · refine (C6_not_found ⟨"/home/u", [], [⟨some ["x.txt"]⟩], fun _ => none⟩
      "remote-bucket" (some "p/")).2 (by decide) ?_
    intro page hm objs hc
    simp only [List.mem_singleton] at hm
    subst hm
    simp only [S3Page.contents] at hc
    cases hc
    decide

/-! ### Claim C7 -/

/-- Totality of code-point lexicographic string comparison. -/
theorem lexLe_total : ∀ x y : List Char, lexLe x y = true ∨ lexLe y x = true := by
  intro x
  induction x with
  | nil => intro y; exact Or.inl rfl
  | cons a as ih =>
    intro y
    cases y with
    | nil => exact Or.inr rfl
    | cons b bs =>
      by_cases hab : a.toNat < b.toNat
      · exact Or.inl (by simp [lexLe, hab])
      · by_cases hba : b.toNat < a.toNat
        · exact Or.inr (by simp [lexLe, hba])
        · rcases ih bs with h | h
          · exact Or.inl (by simp [lexLe, hab, hba, h])
          · exact Or.inr (by simp [lexLe, hab, hba, h])

/-- Transitivity of code-point lexicographic string comparison. -/
theorem lexLe_trans :
    ∀ x y z : List Char, lexLe x y = true → lexLe y z = true → lexLe x z = true := by
  intro x
  induction x with
  | nil => intro y z _ _; rfl
  | cons a as ih =>
    intro y z h1 h2
    cases y with
    | nil => simp [lexLe] at h1
    | cons b bs =>
      cases z with
      | nil => simp [lexLe] at h2
      | cons c cs =>
        simp only [lexLe] at h1 h2 ⊢
        split_ifs at h1 h2 ⊢ <;>
          first
            | rfl
            | omega
            | exact ih bs cs h1 h2

instance : IsTotal String strLeP :=
  ⟨fun a b => lexLe_total a.data b.data⟩

instance : IsTrans String strLeP :=
  ⟨fun a b c => lexLe_trans a.data b.data c.data⟩

/-- All keys ending in `.parquet` listed across the response pages, in
listing order. -/
def listedKeys (pages : List S3Page) : List String :=
  (pages.map fun pg => (pg.contents.getD []).filter fun k => strEndsS ".parquet" k).flatten

/-- When every response carries a `Contents` field, the listing loop
collects the `.parquet` keys of all pages in listing order. -/
theorem pageLoop_all_some (bucket : String) (pfix : Option String) :
    ∀ (pages : List S3Page) (acc : List String),
      (∀ page ∈ pages, page.contents ≠ none) →
      pageLoop bucket pfix pages acc = .ok (acc ++ listedKeys pages) := by
  intro pages
  induction pages with
  | nil => intro acc _; simp [pageLoop, listedKeys]
  | cons page rest ih =>
    intro acc h
    cases hc : page.contents with
    | none => exact absurd hc (h page (List.mem_cons_self page rest))
    | some objs =>
      have hrest := ih (acc ++ objs.filter fun k => strEndsS ".parquet" k)
        fun pg hm => h pg (List.mem_cons_of_mem page hm)
      simp [pageLoop, hc, listedKeys, hrest, List.append_assoc]

/-- When every listed key fetches successfully, the fetch loop returns the
parsed objects in listing order. -/
theorem fetchKeys_all_some (g : String → Option DF) :
    ∀ keys : List String, (∀ k ∈ keys, g k ≠ none) →
      fetchKeys g keys = .ok (keys.map fun k => (g k).getD []) := by
  intro keys
  induction keys with
  | nil => intro _; rfl
  | cons k rest ih =>
    intro h
    cases hk : g k with
    | none => exact absurd hk (h k (List.mem_cons_self k rest))
    | some df =>
      have hrest := ih fun k2 hm => h k2 (List.mem_cons_of_mem k hm)
      simp [fetchKeys, hk, hrest, Except.map]

/-- C7: a location is local iff it begins with "/", "." or "~"; local
Mode B returns the concatenation, in sorted-by-path order, of every file
under location+prefix ending in `.parquet` (and only those); remote Mode B
drains the paginated listing and concatenates the matching objects in
listing order. -/
theorem C7_loader_modes (env : LoaderEnv) (bucket : String) (pfix : Option String) :
    (isLocalPath bucket = true ↔
      (strStartsS "/" bucket = true ∨ strStartsS "." bucket = true
        ∨ strStartsS "~" bucket = true))
    ∧ (isLocalPath bucket = true →
        globParquet env.fs (localBase env.home bucket pfix) ≠ [] →
        load_parquet_from_s3 env bucket pfix none
          = .ok (((sortStrings (globParquet env.fs (localBase env.home bucket pfix))).map
              (readLocal env.fs)).flatten)
        ∧ List.Sorted strLeP
            (sortStrings (globParquet env.fs (localBase env.home bucket pfix)))
        ∧ (sortStrings (globParquet env.fs (localBase env.home bucket pfix))).Perm
            (globParquet env.fs (localBase env.home bucket pfix))
        ∧ ∀ p, p ∈ globParquet env.fs (localBase env.home bucket pfix) ↔
            (p ∈ env.fs.map Prod.fst
              ∧ strStartsS (dirSlash (localBase env.home bucket pfix)) p = true
              ∧ strEndsS ".parquet" p = true))
    ∧ (isLocalPath bucket = false →
        (∀ page ∈ env.s3pages, page.contents ≠ none) →
        (∀ k ∈ listedKeys env.s3pages, env.s3get k ≠ none) →
        listedKeys env.s3pages ≠ [] →
        load_parquet_from_s3 env bucket pfix none
          = .ok (((listedKeys env.s3pages).map fun k => (env.s3get k).getD []).flatten)) := by
  refine ⟨?_, ?_, ?_⟩
  · obtain ⟨data⟩ := bucket
    cases data with
    | nil => simp [isLocalPath, strStartsS, strStarts]
    | cons c cs =>
      have h1 : (("/" : String).data) = ['/'] := rfl
      have h2 : (("." : String).data) = ['.'] := rfl
      have h3 : (("~" : String).data) = ['~'] := rfl
      simp only [isLocalPath, strStartsS, h1, h2, h3, strStarts, Bool.and_true,
        Bool.or_eq_true, decide_eq_true_eq]
      constructor
      · rintro ((h | h) | h) <;> simp [h]
      · rintro (h | h | h) <;> simp [← h]
  · intro hl hne
    refine ⟨?_, ?_, ?_, ?_⟩
    · simp [load_parquet_from_s3, hl, hne]
    · exact List.sorted_insertionSort strLeP _
    · exact List.perm_insertionSort strLeP _
    · intro p
      simp [globParquet, List.mem_filter]
  · intro hl hpages hget hne
    have hloop := pageLoop_all_some bucket pfix env.s3pages [] hpages
    have hfetch := fetchKeys_all_some env.s3get (listedKeys env.s3pages) hget
    simp [load_parquet_from_s3, hl, hloop, hne, hfetch]

/-- Witness for C7: a concrete local directory holding two parquet files
read in sorted order, and a concrete two-page remote listing drained in
listing order. -/
theorem C7_loader_modes_witness :
    load_parquet_from_s3
        ⟨"/h", [("./d/b.parquet", ["r2"]), ("./d/a.parquet", ["r1"]),
          ("./d/notes.txt", ["n"])], [], fun _ => none⟩
        "./d" none none
      = .ok ["r1", "r2"]
    ∧ load_parquet_from_s3
        ⟨"/h", [], [⟨some ["k1.parquet", "x.txt"]⟩, ⟨some ["k2.parquet"]⟩],
          fun k => if k = "k1.parquet" then some ["u"]
            else if k = "k2.parquet" then some ["v"] else none⟩
        "buck" none none
      = .ok ["u", "v"] := by
  constructor
  · have h := ((C7_loader_modes
      ⟨"/h", [("./d/b.parquet", ["r2"]), ("./d/a.parquet", ["r1"]),
        ("./d/notes.txt", ["n"])], [], fun _ => none⟩
      "./d" none).2.1 (by decide) (by decide)).1
    rw [h]
    rfl
  · have h := (C7_loader_modes
      ⟨"/h", [], [⟨some ["k1.parquet", "x.txt"]⟩, ⟨some ["k2.parquet"]⟩],
        fun k => if k = "k1.parquet" then some ["u"]
          else if k = "k2.parquet" then some ["v"] else none⟩
      "buck" none).2.2 (by decide) (by decide) (by decide) (by decide)
    rw [h]
    rfl
